import Mathlib

/-!
Verification of the `ru_search` aggregation core (aggregator.py, cache.py)
against its natural-language specification.

The Python code is shallowly embedded:
* floats become `ℚ` (all arithmetic in the modelled code is field arithmetic
  plus Python's `round(x, n)`, which is modelled as round-half-to-even on
  exact rationals);
* `time.time()` becomes an explicit `now : ℚ` argument;
* Python dicts become insertion-ordered association lists (the dict key order
  and in-place update semantics matter for the brand top-5 tie-breaking);
* the cache key `f"{source}:{md5(query)}"` is modelled as the pair
  `(source, query)` — md5 is treated as injective on queries, which is the
  stated design intent of the key derivation;
* raised exceptions become `Except` values; the per-call `asyncio.wait_for`
  timeout is modelled by an explicit `timedOut : Bool` oracle (real time is
  not embeddable), and per-source fetch outcomes by a
  `fetch : String → Except String (List Product)` oracle;
* the purely presentational fields `price_range` (a formatted string),
  `disclosure_message` and `citation_format` are not modelled — no claim
  depends on their content.
-/

namespace RuSearch

/-- Python's `round(x, ndigits)` uses round-half-to-even. `roundHalfEven q`
is the integer nearest to `q`, ties going to the even integer. (`Rat.floor`
is used rather than `⌊·⌋` so the definition evaluates inside the kernel;
`Rat.floor_def` identifies the two.) -/
def roundHalfEven (q : ℚ) : ℤ :=
  let f := q.floor
  let r := q - (f : ℚ)
  if r < 1 / 2 then f
  else if 1 / 2 < r then f + 1
  else if f % 2 = 0 then f else f + 1

/-- Python round(x, 2), on exact rationals. -/
def round2 (q : ℚ) : ℚ := (roundHalfEven (q * 100) : ℚ) / 100

/-- Python round(x, 3), on exact rationals. -/
def round3 (q : ℚ) : ℚ := (roundHalfEven (q * 1000) : ℚ) / 1000

/-- Lookup in an insertion-ordered association list (Python `dict.get`). -/
def assocGet {K β : Type} [DecidableEq K] : List (K × β) → K → Option β
  | [], _ => none
  | (k1, v) :: rest, k => if k1 = k then some v else assocGet rest k

/-- Python `d[k] = v`: update in place preserving insertion order, else append. -/
def assocSet {K β : Type} [DecidableEq K] : List (K × β) → K → β → List (K × β)
  | [], k, v => [(k, v)]
  | (k1, v1) :: rest, k, v =>
      if k1 = k then (k, v) :: rest else (k1, v1) :: assocSet rest k v

/-- Python `del d[k]`. -/
def assocRemove {K β : Type} [DecidableEq K] : List (K × β) → K → List (K × β)
  | [], _ => []
  | (k1, v1) :: rest, k =>
      if k1 = k then assocRemove rest k else (k1, v1) :: assocRemove rest k

/-- Python `d[k] = d.get(k, 0) + 1` for a counting dict. -/
def assocIncr : List (String × ℕ) → String → List (String × ℕ)
  | [], k => [(k, 1)]
  | (k1, c) :: rest, k =>
      if k1 = k then (k1, c + 1) :: rest else (k1, c) :: assocIncr rest k

/-- Product record from `ru_search.base.Product`. `metadata` is the open
keyword mapping (`**kwargs`); only string-valued entries (brand etc.) are
relevant to the modelled code paths. -/
structure Product where
  id : String
  title : String
  price : ℚ
  url : String
  metadata : List (String × String)
deriving DecidableEq, Repr

/-- One entry of the aggregator's `errors` list: `{'source': ..., 'error': ...}`. -/
structure SourceError where
  source : String
  error : String
deriving DecidableEq, Repr

/-- One stored cache value, `cache.py` lines 95-100: the `timestamp` written
by `set` plus the caller's `data` payload (`query_hash`/`source` bookkeeping
fields are derivable and omitted). -/
structure CacheItem (α : Type) where
  timestamp : ℚ
  data : α
deriving DecidableEq, Repr

/-- The `SearchCache` state: TTL plus the backing map `_cache`. -/
structure SearchCache (α : Type) where
  ttl : ℚ
  cache : List ((String × String) × CacheItem α)
deriving DecidableEq, Repr

/-- A fresh cache, `SearchCache.__init__`. -/
def SearchCache.empty (α : Type) (ttl : ℚ) : SearchCache α := ⟨ttl, []⟩

/-- Model of `SearchCache.get` (cache.py lines 49-82): returns the stored payload while
`now ≤ timestamp + ttl`; an expired entry is deleted and `none` returned.
Returns the possibly-updated cache state alongside the result. -/
def SearchCache.get {α : Type} (c : SearchCache α) (source query : String)
    (now : ℚ) : Option α × SearchCache α :=
  match assocGet c.cache (source, query) with
  | none => (none, c)
  | some item =>
      if now > item.timestamp + c.ttl then
        (none, { c with cache := assocRemove c.cache (source, query) })
      else
        (some item.data, c)

/-- Model of `SearchCache.set` (cache.py lines 84-103): unconditionally (over)writes the
entry with the current timestamp. -/
def SearchCache.set {α : Type} (c : SearchCache α) (source query : String)
    (data : α) (now : ℚ) : SearchCache α :=
  { c with cache := assocSet c.cache (source, query) ⟨now, data⟩ }

/-- Python `min` over a non-empty list (`[]` case is unreachable in the code,
which guards with `if prices else 0.0`). -/
def qMin : List ℚ → ℚ
  | [] => 0
  | [x] => x
  | x :: y :: ys => min x (qMin (y :: ys))

/-- Python `max` over a non-empty list. -/
def qMax : List ℚ → ℚ
  | [] => 0
  | [x] => x
  | x :: y :: ys => max x (qMax (y :: ys))

/-- Stable insertion used to model Python's stable
`sorted(items, key=lambda x: x[1], reverse=True)`: an element goes before the
first element whose count it matches or exceeds; among equal counts the
original order is kept. -/
def insertByCountDesc (x : String × ℕ) : List (String × ℕ) → List (String × ℕ)
  | [] => [x]
  | y :: ys => if x.2 ≥ y.2 then x :: y :: ys else y :: insertByCountDesc x ys

/-- Stable sort by descending count (Python `sorted(..., reverse=True)`). -/
def sortByCountDesc (l : List (String × ℕ)) : List (String × ℕ) :=
  l.foldr insertByCountDesc []

/-- Brand counting loop of `_calculate_summary` (aggregator.py lines 676-680):
`brand = product.metadata.get('brand', 'Unknown'); if brand: count it`.
Note an empty-string brand is falsy in Python and therefore skipped. -/
def brandCounts (products : List Product) : List (String × ℕ) :=
  products.foldl
    (fun acc p =>
      let brand := (assocGet p.metadata "brand").getD "Unknown"
      if brand = "" then acc else assocIncr acc brand)
    []

/-- The `summary` dict of `MarketDataAggregator._calculate_summary`.
`top_brands`/`brand_diversity` are `Option` because the empty-products branch
of the code returns a dict without those keys. The formatted `price_range`
string is not modelled. -/
structure Summary where
  total_products : ℕ
  unique_products : ℕ
  average_price : ℚ
  min_price : ℚ
  max_price : ℚ
  total_sources : ℕ
  successful_sources : ℤ
  failed_sources : ℕ
  error_rate : ℚ
  top_brands : Option (List (String × ℕ))
  brand_diversity : Option ℕ
deriving DecidableEq, Repr

/-- Model of `MarketDataAggregator._calculate_summary` (aggregator.py lines 622-698). -/
def calcSummary (products : List Product) (sources_used : List String)
    (errors : List SourceError) : Summary :=
  if products.isEmpty then
    { total_products := 0
      unique_products := 0
      average_price := 0
      min_price := 0
      max_price := 0
      total_sources := sources_used.length
      successful_sources := (sources_used.length : ℤ) - errors.length
      failed_sources := errors.length
      error_rate :=
        if sources_used.isEmpty then 0
        else (errors.length : ℚ) / sources_used.length
      top_brands := none
      brand_diversity := none }
  else
    let prices := products.map Product.price
    let uniqueIds := (products.filterMap
      (fun p => if p.id = "" then none else some p.id)).dedup
    let average_price := if prices.isEmpty then 0 else prices.sum / prices.length
    let min_price := if prices.isEmpty then 0 else qMin prices
    let max_price := if prices.isEmpty then 0 else qMax prices
    let error_rate :=
      if sources_used.isEmpty then 0
      else (errors.length : ℚ) / sources_used.length
    let counts := brandCounts products
    { total_products := products.length
      unique_products := uniqueIds.length
      average_price := round2 average_price
      min_price := round2 min_price
      max_price := round2 max_price
      total_sources := sources_used.length
      successful_sources := (sources_used.length : ℤ) - errors.length
      failed_sources := errors.length
      error_rate := round3 error_rate
      top_brands := some ((sortByCountDesc counts).take 5)
      brand_diversity := some counts.length }

/-- Model of `DataQualityAssessor._calculate_base_confidence` (lines 100-127). -/
def calculate_base_confidence (products : List Product)
    (sources_used : List String) (errors : List SourceError) : ℚ :=
  if products.isEmpty then 0.4
  else
    let b1 : ℚ := 0.7
    let b2 :=
      if products.length < 5 then b1 - 0.1
      else if products.length ≥ 20 then b1 + 0.1
      else b1
    let error_rate :=
      if sources_used.isEmpty then (0 : ℚ)
      else (errors.length : ℚ) / sources_used.length
    let b3 :=
      if error_rate > 0.5 then b2 - 0.2
      else if error_rate > 0.2 then b2 - 0.1
      else b2
    max 0.4 (min 0.9 b3)

/-- Model of `DataQualityAssessor._calculate_freshness_score` (lines 129-144). -/
def calculate_freshness_score (data_age : ℚ) : ℚ :=
  let age_hours := data_age / 3600
  if age_hours ≤ 1 then 1.0
  else if age_hours ≤ 6 then 0.9
  else if age_hours ≤ 24 then 0.7
  else if age_hours ≤ 168 then 0.5
  else 0.3

/-- Number of `True` values in the cache-hit map. -/
def countHits (l : List (String × Bool)) : ℕ := (l.filter (fun p => p.2)).length

/-- Model of `DataQualityAssessor._calculate_reliability_score` (lines 146-173). -/
def calculate_reliability_score (sources_used : List String)
    (errors : List SourceError) (cache_hits : List (String × Bool)) : ℚ :=
  if sources_used.isEmpty then 0.5
  else
    let r1 : ℚ := 0.7
    let error_rate := (errors.length : ℚ) / sources_used.length
    let r2 :=
      if error_rate > 0.5 then r1 - 0.3
      else if error_rate > 0.2 then r1 - 0.1
      else r1
    let cache_usage :=
      if cache_hits.isEmpty then (0 : ℚ)
      else (countHits cache_hits : ℚ) / cache_hits.length
    let r3 :=
      if cache_usage > 0.8 then r2 - 0.1
      else if cache_usage < 0.2 then r2 + 0.1
      else r2
    max 0.3 (min 1.0 r3)

/-- Model of `DataQualityAssessor._calculate_confidence_score` (lines 175-190). -/
def calculate_confidence_score (base_score freshness_score reliability_score : ℚ) : ℚ :=
  max 0.4 (min 0.9
    (base_score * 0.5 + freshness_score * 0.3 + reliability_score * 0.2))

/-- Model of `DataQualityAssessor._calculate_completeness_score` (lines 192-213). -/
def calculate_completeness_score (products : List Product) : ℚ :=
  if products.isEmpty then 0
  else
    let complete := products.filter (fun p =>
      decide (p.price > 0) && decide (p.title.trim ≠ "") &&
      decide (p.url.trim ≠ "") && decide (p.metadata.length ≥ 3))
    round2 ((complete.length : ℚ) / products.length)

/-- Model of `DataQualityAssessor._get_quality_grade` (lines 274-285). -/
def get_quality_grade (confidence_score : ℚ) : String :=
  if confidence_score ≥ 0.8 then "A (Отлично)"
  else if confidence_score ≥ 0.7 then "B (Хорошо)"
  else if confidence_score ≥ 0.6 then "C (Удовлетворительно)"
  else if confidence_score ≥ 0.5 then "D (Ниже среднего)"
  else "F (Неудовлетворительно)"

/-- The `source_info` tuple component built by `_search_source`. -/
structure SourceInfoR where
  products : List Product
  timestamp : ℚ
  cache_hit : Bool
  fallback : Bool
deriving DecidableEq, Repr

/-- The quality-metrics dict returned by `DataQualityAssessor.assess_quality`
(lines 84-98). `disclosure_message` and `citation_format` are presentational
and not modelled. -/
structure QualityReport where
  confidence_score : ℚ
  freshness_score : ℚ
  reliability_score : ℚ
  completeness_score : ℚ
  data_age_seconds : ℚ
  source_coverage : ℕ
  successful_sources : ℤ
  error_rate : ℚ
  cache_usage : ℚ
  quality_grade : String
deriving DecidableEq, Repr

/-- Model of `DataQualityAssessor.assess_quality` (aggregator.py lines 41-98). -/
def assess_quality (products : List Product) (sources_used : List String)
    (errors : List SourceError) (cache_hits : List (String × Bool))
    (data_age : ℚ) (source_data : List (String × SourceInfoR)) : QualityReport :=
  let base_score := calculate_base_confidence products sources_used errors
  let freshness_score := calculate_freshness_score data_age
  let reliability_score := calculate_reliability_score sources_used errors cache_hits
  let confidence_score :=
    calculate_confidence_score base_score freshness_score reliability_score
  let _ := source_data
  { confidence_score := round2 confidence_score
    freshness_score := round2 freshness_score
    reliability_score := round2 reliability_score
    completeness_score := round2 (calculate_completeness_score products)
    data_age_seconds := round2 data_age
    source_coverage := sources_used.length
    successful_sources := (sources_used.length : ℤ) - errors.length
    error_rate :=
      if sources_used.isEmpty then 0
      else (errors.length : ℚ) / sources_used.length
    cache_usage :=
      if cache_hits.isEmpty then 0
      else (countHits cache_hits : ℚ) / cache_hits.length
    quality_grade := get_quality_grade confidence_score }

/-- Exceptions raised by the aggregator. Python raises bare `Exception`s whose
message strings are rendered by `AggError.message`; the constructors record
which `raise` site produced the exception and its arguments. -/
inductive AggError where
  | timeout (seconds : ℕ)
  | sourceFailed (source : String) (msg : String)
  | raised (msg : String)
deriving DecidableEq, Repr

/-- The exact Python exception message strings (aggregator.py lines 455, 606). -/
def AggError.message : AggError → String
  | .timeout t => "Search operation timed out after " ++ (toString t ++ " seconds")
  | .sourceFailed s m => "Search failed for " ++ (s ++ (": " ++ m))
  | .raised m => m

/-- The dict stored in the cache by `_search_source` (lines 570-575); the
`query`/`source` echo fields are omitted. -/
structure CachePayload where
  products : List Product
  timestamp : ℚ
deriving DecidableEq, Repr

/-- Model of `MarketDataAggregator._search_source` (aggregator.py lines 519-606).
`fetch` is the outcome of `source.search(query)` — `Except.error e` models the
provider raising with message `e`. The shared cache is threaded explicitly;
the tuple result mirrors `(products, cache_hit, source_info)`. -/
def searchSource (cache : SearchCache CachePayload) (source_name query : String)
    (fetch : Except String (List Product)) (use_cache fallback_to_cache : Bool)
    (now : ℚ) :
    Except AggError (List Product × Bool × SourceInfoR) × SearchCache CachePayload :=
  let tier1 :=
    if use_cache then cache.get source_name query now else (none, cache)
  match tier1 with
  | (some payload, c1) =>
      (Except.ok (payload.products, true,
        ⟨payload.products, payload.timestamp, true, false⟩), c1)
  | (none, c1) =>
      match fetch with
      | Except.ok products =>
          let c2 :=
            if use_cache then c1.set source_name query ⟨products, now⟩ now else c1
          (Except.ok (products, false, ⟨products, now, false, false⟩), c2)
      | Except.error e =>
          if fallback_to_cache then
            match c1.get source_name query now with
            | (some payload, c3) =>
                (Except.ok (payload.products, true,
                  ⟨payload.products, payload.timestamp, true, true⟩), c3)
            | (none, c3) => (Except.error (AggError.sourceFailed source_name e), c3)
          else (Except.error (AggError.sourceFailed source_name e), c1)

/-- One entry of the `source_results` mapping (lines 473-489). `timestamp` is
present only on the success branch, as in the code. -/
structure SourceResultR where
  products : List Product
  error : Option String
  cache_hit : Bool
  count : ℕ
  timestamp : Option ℚ
deriving DecidableEq, Repr

/-- The per-source fan-out (lines 436-450): one `_search_source` unit per
resolved source, sharing the cache. The concurrent units are linearised in
list order; every claim checked here is order-insensitive. -/
def runUnits (sources_to_use : List String) (cache : SearchCache CachePayload)
    (fetch : String → Except String (List Product))
    (use_cache fallback_to_cache : Bool) (query : String) (now : ℚ) :
    List (String × Except AggError (List Product × Bool × SourceInfoR)) ×
      SearchCache CachePayload :=
  match sources_to_use with
  | [] => ([], cache)
  | s :: rest =>
      let r1 := searchSource cache s query (fetch s) use_cache fallback_to_cache now
      let r2 := runUnits rest r1.2 fetch use_cache fallback_to_cache query now
      ((s, r1.1) :: r2.1, r2.2)

/-- Accumulators of the result-processing loop (lines 457-491). -/
structure Collected where
  all_products : List Product
  source_results : List (String × SourceResultR)
  errors : List SourceError
  cache_hits : List (String × Bool)
  source_data : List (String × SourceInfoR)
deriving DecidableEq, Repr

/-- The result-processing loop of `search` (aggregator.py lines 457-491):
exceptions land in `errors` with `str(result)` and an error stub in
`source_results`; successes are concatenated in source order. -/
def collect :
    List (String × Except AggError (List Product × Bool × SourceInfoR)) →
      Collected
  | [] => ⟨[], [], [], [], []⟩
  | (name, r) :: rest =>
      let c := collect rest
      match r with
      | Except.error e =>
          ⟨c.all_products,
            (name, ⟨[], some e.message, false, 0, none⟩) :: c.source_results,
            ⟨name, e.message⟩ :: c.errors,
            (name, false) :: c.cache_hits,
            c.source_data⟩
      | Except.ok (products, hit, info) =>
          ⟨products ++ c.all_products,
            (name, ⟨products, none, hit, products.length, some info.timestamp⟩) ::
              c.source_results,
            c.errors,
            (name, hit) :: c.cache_hits,
            (name, info) :: c.source_data⟩

/-- Model of `MarketDataAggregator._calculate_data_age` (lines 608-620): mean of
`now - timestamp` over the source results that carry a timestamp. -/
def calcDataAge (source_results : List (String × SourceResultR)) (now : ℚ) : ℚ :=
  let ages := source_results.filterMap (fun p => p.2.timestamp.map (fun ts => now - ts))
  if ages.isEmpty then 0 else ages.sum / ages.length

/-- Source resolution (lines 430-433): unknown names are silently dropped. -/
def resolveSources (available : List String) : Option (List String) → List String
  | none => available
  | some ss => ss.filter (fun s => available.contains s)

/-- The `SearchResultBundle` dict returned by `search` (lines 507-517).
`disclosure`/`citations` duplicate assessor output and are not modelled;
`summary.execution_time` is wall-clock and not modelled. -/
structure Bundle where
  query : String
  results : List Product
  summary : Summary
  source_results : List (String × SourceResultR)
  errors : List SourceError
  data_quality : QualityReport
  timestamp : ℚ
deriving DecidableEq, Repr

/-- Model of `MarketDataAggregator.search` (aggregator.py lines 395-517). `timedOut`
models whether `asyncio.wait_for` fired (line 451): if so the call raises the
timeout exception of line 455 and returns nothing else. -/
def searchAgg (available : List String) (sources : Option (List String))
    (fetch : String → Except String (List Product))
    (cache : SearchCache CachePayload) (use_cache fallback_to_cache : Bool)
    (timeout : ℕ) (timedOut : Bool) (query : String) (now : ℚ) :
    Except AggError Bundle :=
  if timedOut then Except.error (AggError.timeout timeout)
  else
    let stu := resolveSources available sources
    let ru := runUnits stu cache fetch use_cache fallback_to_cache query now
    let c := collect ru.1
    let summary := calcSummary c.all_products stu c.errors
    let data_age := calcDataAge c.source_results now
    let dq := assess_quality c.all_products stu c.errors c.cache_hits data_age
      c.source_data
    Except.ok ⟨query, c.all_products, summary, c.source_results, c.errors, dq, now⟩

/-- Variant of `search` with the quality assessor abstracted as a fallible collaborator.
The code calls `self.quality_assessor.assess_quality(...)` at line 500 with no
surrounding `try`/`except`, so a failure inside the assessor propagates out of
`search`; this definition mirrors that call site exactly: an `Except.error`
from the assessor becomes a raised exception of the whole call. -/
def searchAggWith
    (assess : List Product → List String → List SourceError →
      List (String × Bool) → ℚ → List (String × SourceInfoR) →
        Except String QualityReport)
    (available : List String) (sources : Option (List String))
    (fetch : String → Except String (List Product))
    (cache : SearchCache CachePayload) (use_cache fallback_to_cache : Bool)
    (timeout : ℕ) (timedOut : Bool) (query : String) (now : ℚ) :
    Except AggError Bundle :=
  if timedOut then Except.error (AggError.timeout timeout)
  else
    let stu := resolveSources available sources
    let ru := runUnits stu cache fetch use_cache fallback_to_cache query now
    let c := collect ru.1
    let summary := calcSummary c.all_products stu c.errors
    let data_age := calcDataAge c.source_results now
    match assess c.all_products stu c.errors c.cache_hits data_age c.source_data with
    | Except.error e => Except.error (AggError.raised e)
    | Except.ok dq =>
        Except.ok ⟨query, c.all_products, summary, c.source_results, c.errors, dq, now⟩

/-- Modelled from the spec: the brand-distribution rule as §4.4 states it —
"grouping by a `brand` metadata field, treating absent/empty brand as
`\x7bUnknown\x7d`" is paraphrased here: an absent OR empty-string brand is
counted under "Unknown". Declared only to compare against the code's
`brandCounts`. -/
def specBrandCounts (products : List Product) : List (String × ℕ) :=
  products.foldl
    (fun acc p =>
      let b := (assocGet p.metadata "brand").getD "Unknown"
      assocIncr acc (if b = "" then "Unknown" else b))
    []

/-! ### Helper lemmas about rounding -/

theorem ratFloor_eq (q : ℚ) : q.floor = ⌊q⌋ :=
  (Rat.floor_def' q).trans Rat.floor_def.symm

theorem floor_le_roundHalfEven (q : ℚ) : ⌊q⌋ ≤ roundHalfEven q := by
  simp only [roundHalfEven, ratFloor_eq]
  split_ifs <;> omega

theorem roundHalfEven_le_floor_add_one (q : ℚ) : roundHalfEven q ≤ ⌊q⌋ + 1 := by
  simp only [roundHalfEven, ratFloor_eq]
  split_ifs <;> omega

theorem le_roundHalfEven {k : ℤ} {q : ℚ} (h : (k : ℚ) ≤ q) :
    k ≤ roundHalfEven q :=
  le_trans (Int.le_floor.mpr h) (floor_le_roundHalfEven q)

theorem roundHalfEven_le {k : ℤ} {q : ℚ} (h : q ≤ (k : ℚ)) :
    roundHalfEven q ≤ k := by
  have hk : ⌊q⌋ ≤ k := by
    have := Int.floor_mono h
    rwa [Int.floor_intCast] at this
  simp only [roundHalfEven, ratFloor_eq]
  split_ifs with h1 h2 h3
  · exact hk
  · have hf : (⌊q⌋ : ℚ) + 1 / 2 ≤ q := by
      have := Int.floor_le q
      linarith [not_lt.mp h1]
    have hlt : (⌊q⌋ : ℚ) < (k : ℚ) := by linarith
    have : ⌊q⌋ < k := by exact_mod_cast hlt
    omega
  · exact hk
  · have hf : (⌊q⌋ : ℚ) + 1 / 2 ≤ q := by linarith [not_lt.mp h1]
    have hlt : (⌊q⌋ : ℚ) < (k : ℚ) := by linarith
    have : ⌊q⌋ < k := by exact_mod_cast hlt
    omega

theorem roundHalfEven_mono {a b : ℚ} (h : a ≤ b) :
    roundHalfEven a ≤ roundHalfEven b := by
  have hf : ⌊a⌋ ≤ ⌊b⌋ := Int.floor_mono h
  by_cases heq : ⌊a⌋ = ⌊b⌋
  · have hq : a - (⌊a⌋ : ℚ) ≤ b - (⌊b⌋ : ℚ) := by
      have hc : ((⌊a⌋ : ℤ) : ℚ) = ((⌊b⌋ : ℤ) : ℚ) := by exact_mod_cast heq
      linarith
    simp only [roundHalfEven, ratFloor_eq]
    split_ifs <;> first | omega | (exfalso; linarith)
  · have hlt : ⌊a⌋ < ⌊b⌋ := lt_of_le_of_ne hf heq
    have h1 := roundHalfEven_le_floor_add_one a
    have h2 := floor_le_roundHalfEven b
    omega

theorem round2_mono {a b : ℚ} (h : a ≤ b) : round2 a ≤ round2 b := by
  have hr : roundHalfEven (a * 100) ≤ roundHalfEven (b * 100) :=
    roundHalfEven_mono (by linarith)
  unfold round2
  have : ((roundHalfEven (a * 100) : ℤ) : ℚ) ≤ ((roundHalfEven (b * 100) : ℤ) : ℚ) := by
    exact_mod_cast hr
  linarith

theorem le_round2 {k : ℤ} {q : ℚ} (h : (k : ℚ) / 100 ≤ q) :
    (k : ℚ) / 100 ≤ round2 q := by
  have hk : (k : ℚ) ≤ q * 100 := by linarith
  have := le_roundHalfEven hk
  have hc : ((k : ℤ) : ℚ) ≤ ((roundHalfEven (q * 100) : ℤ) : ℚ) := by exact_mod_cast this
  unfold round2
  linarith

theorem round2_le {k : ℤ} {q : ℚ} (h : q ≤ (k : ℚ) / 100) :
    round2 q ≤ (k : ℚ) / 100 := by
  have hk : q * 100 ≤ (k : ℚ) := by linarith
  have := roundHalfEven_le hk
  have hc : ((roundHalfEven (q * 100) : ℤ) : ℚ) ≤ ((k : ℤ) : ℚ) := by exact_mod_cast this
  unfold round2
  linarith

/-! ### Helper lemmas about association lists -/

theorem assocGet_assocSet_self {K β : Type} [DecidableEq K]
    (m : List (K × β)) (k : K) (v : β) :
    assocGet (assocSet m k v) k = some v := by
  induction m with
  | nil => simp [assocGet, assocSet]
  | cons hd tl ih =>
      obtain ⟨k1, v1⟩ := hd
      by_cases h : k1 = k <;> simp [assocGet, assocSet, h, ih]

theorem assocGet_assocRemove_self {K β : Type} [DecidableEq K]
    (m : List (K × β)) (k : K) :
    assocGet (assocRemove m k) k = none := by
  induction m with
  | nil => simp [assocGet, assocRemove]
  | cons hd tl ih =>
      obtain ⟨k1, v1⟩ := hd
      by_cases h : k1 = k <;> simp [assocGet, assocRemove, h, ih]

/-- C2: a cache entry written at `t0` is returned by `get` at any `t` with
`t - t0 ≤ ttl` (the state untouched), and at any `t` with `t - t0 > ttl` the
read returns `none` and removes the entry from the backing map. -/
theorem cache_get_ttl_boundary {α : Type} (c : SearchCache α) (s q : String)
    (d : α) (t0 t : ℚ) :
    (t - t0 ≤ c.ttl →
      SearchCache.get (SearchCache.set c s q d t0) s q t
        = (some d, SearchCache.set c s q d t0))
    ∧ (c.ttl < t - t0 →
      (SearchCache.get (SearchCache.set c s q d t0) s q t).1 = none
      ∧ assocGet ((SearchCache.get (SearchCache.set c s q d t0) s q t).2).cache
          (s, q) = none) := by
  have hget : assocGet (assocSet c.cache (s, q) ⟨t0, d⟩) (s, q)
      = some ⟨t0, d⟩ := assocGet_assocSet_self c.cache (s, q) ⟨t0, d⟩
  constructor
  · intro h
    have hcond : ¬ t0 + c.ttl < t := by simp only [not_lt]; linarith
    simp only [SearchCache.get, SearchCache.set]
    rw [hget]
    simp [hcond]
  · intro h
    have hcond : t0 + c.ttl < t := by linarith
    simp only [SearchCache.get, SearchCache.set]
    rw [hget]
    simp [hcond, assocGet_assocRemove_self]

/-- Witness for C2 at `ttl = 10`, insertion time `0`: a read at `t = 10`
(boundary, `t - t0 = ttl`) returns the payload, a read at `t = 11` returns
`none` and has purged the key. -/
theorem cache_get_ttl_boundary_witness :
    SearchCache.get (SearchCache.set (SearchCache.empty ℕ 10) "wb" "query" 7 0)
        "wb" "query" 10
      = (some 7, SearchCache.set (SearchCache.empty ℕ 10) "wb" "query" 7 0)
    ∧ (SearchCache.get (SearchCache.set (SearchCache.empty ℕ 10) "wb" "query" 7 0)
        "wb" "query" 11).1 = none :=
  ⟨(cache_get_ttl_boundary (SearchCache.empty ℕ 10) "wb" "query" 7 0 10).1
      (by norm_num [SearchCache.empty]),
   ((cache_get_ttl_boundary (SearchCache.empty ℕ 10) "wb" "query" 7 0 11).2
      (by norm_num [SearchCache.empty])).1⟩

/-- C1: `assess_quality` always reports a confidence score inside
`[0.4, 0.9]`, for every combination of inputs. -/
theorem assess_quality_confidence_in_range (products : List Product)
    (sources_used : List String) (errors : List SourceError)
    (cache_hits : List (String × Bool)) (data_age : ℚ)
    (source_data : List (String × SourceInfoR)) :
    0.4 ≤ (assess_quality products sources_used errors cache_hits data_age
        source_data).confidence_score
    ∧ (assess_quality products sources_used errors cache_hits data_age
        source_data).confidence_score ≤ 0.9 := by
  have hcs : (assess_quality products sources_used errors cache_hits data_age
      source_data).confidence_score
      = round2 (calculate_confidence_score
          (calculate_base_confidence products sources_used errors)
          (calculate_freshness_score data_age)
          (calculate_reliability_score sources_used errors cache_hits)) := rfl
  set w := calculate_confidence_score
    (calculate_base_confidence products sources_used errors)
    (calculate_freshness_score data_age)
    (calculate_reliability_score sources_used errors cache_hits) with hw
  have hlo : (0.4 : ℚ) ≤ w := le_max_left _ _
  have hhi : w ≤ (0.9 : ℚ) := max_le (by norm_num) (min_le_left _ _)
  constructor
  · rw [hcs]
    have h40 : ((40 : ℤ) : ℚ) / 100 ≤ w := by push_cast; linarith
    have := le_round2 h40
    push_cast at this
    linarith
  · rw [hcs]
    have h90 : w ≤ ((90 : ℤ) : ℚ) / 100 := by push_cast; linarith
    have := round2_le h90
    push_cast at this
    linarith

/-! ### Helper lemmas about list minimum, maximum and mean -/

theorem length_mul_qMin_le_sum (l : List ℚ) (h : l ≠ []) :
    (l.length : ℚ) * qMin l ≤ l.sum := by
  induction l with
  | nil => exact absurd rfl h
  | cons x xs ih =>
      cases xs with
      | nil => simp [qMin]
      | cons y ys =>
          have h2 := ih (by simp)
          simp only [qMin, List.sum_cons, List.length_cons] at h2 ⊢
          have hm1 : min x (qMin (y :: ys)) ≤ x := min_le_left _ _
          have hm2 : min x (qMin (y :: ys)) ≤ qMin (y :: ys) := min_le_right _ _
          have hn : (0 : ℚ) ≤ ((y :: ys).length : ℚ) := by positivity
          have hp := mul_le_mul_of_nonneg_left hm2 hn
          push_cast at h2 ⊢
          nlinarith

theorem sum_le_length_mul_qMax (l : List ℚ) (h : l ≠ []) :
    l.sum ≤ (l.length : ℚ) * qMax l := by
  induction l with
  | nil => exact absurd rfl h
  | cons x xs ih =>
      cases xs with
      | nil => simp [qMax]
      | cons y ys =>
          have h2 := ih (by simp)
          simp only [qMax, List.sum_cons, List.length_cons] at h2 ⊢
          have hm1 : x ≤ max x (qMax (y :: ys)) := le_max_left _ _
          have hm2 : qMax (y :: ys) ≤ max x (qMax (y :: ys)) := le_max_right _ _
          have hn : (0 : ℚ) ≤ ((y :: ys).length : ℚ) := by positivity
          have hp := mul_le_mul_of_nonneg_left hm2 hn
          push_cast at h2 ⊢
          nlinarith

theorem qMin_le_mean (l : List ℚ) (h : l ≠ []) :
    qMin l ≤ l.sum / (l.length : ℚ) := by
  have hp : (0 : ℚ) < (l.length : ℚ) := by
    exact_mod_cast List.length_pos.mpr h
  rw [le_div_iff₀ hp]
  have := length_mul_qMin_le_sum l h
  linarith [this]

theorem mean_le_qMax (l : List ℚ) (h : l ≠ []) :
    l.sum / (l.length : ℚ) ≤ qMax l := by
  have hp : (0 : ℚ) < (l.length : ℚ) := by
    exact_mod_cast List.length_pos.mpr h
  rw [div_le_iff₀ hp]
  have := sum_le_length_mul_qMax l h
  linarith [this]

/-- C5 (amended): for every non-empty product list, the reported
`average_price` is the exact mean rounded to two decimal places (Python's
`round(·, 2)`), and the reported (likewise rounded) prices satisfy
`min_price ≤ average_price ≤ max_price`. -/
theorem summary_average_price_amended (products : List Product)
    (sources_used : List String) (errors : List SourceError)
    (h : products ≠ []) :
    (calcSummary products sources_used errors).average_price
      = round2 ((products.map Product.price).sum
          / ((products.map Product.price).length : ℚ))
    ∧ (calcSummary products sources_used errors).min_price
        ≤ (calcSummary products sources_used errors).average_price
    ∧ (calcSummary products sources_used errors).average_price
        ≤ (calcSummary products sources_used errors).max_price := by
  have hpe : (products.map Product.price) ≠ [] := by simp [h]
  have hempty : products.isEmpty = false := by
    cases products with
    | nil => exact absurd rfl h
    | cons a l => rfl
  have hpre : (products.map Product.price).isEmpty = false := by
    cases products with
    | nil => exact absurd rfl h
    | cons a l => rfl
  refine ⟨?_, ?_, ?_⟩
  · simp [calcSummary, hempty, hpre]
  · simp only [calcSummary, hempty, Bool.false_eq_true, if_false, hpre]
    exact round2_mono (qMin_le_mean _ hpe)
  · simp only [calcSummary, hempty, Bool.false_eq_true, if_false, hpre]
    exact round2_mono (mean_le_qMax _ hpe)

/-- Witness for C5 (amended) on a concrete three-product list with prices
1, 1, 2. -/
theorem summary_average_price_amended_witness :
    (calcSummary [⟨"1", "A", 1, "u", []⟩, ⟨"2", "B", 1, "u", []⟩,
        ⟨"3", "C", 2, "u", []⟩] ["wildberries"] []).average_price
      = round2 (((([⟨"1", "A", 1, "u", []⟩, ⟨"2", "B", 1, "u", []⟩,
          ⟨"3", "C", 2, "u", []⟩] : List Product).map Product.price).sum)
          / (((([⟨"1", "A", 1, "u", []⟩, ⟨"2", "B", 1, "u", []⟩,
          ⟨"3", "C", 2, "u", []⟩] : List Product).map Product.price).length : ℚ)))
    ∧ (calcSummary [⟨"1", "A", 1, "u", []⟩, ⟨"2", "B", 1, "u", []⟩,
        ⟨"3", "C", 2, "u", []⟩] ["wildberries"] []).min_price
        ≤ (calcSummary [⟨"1", "A", 1, "u", []⟩, ⟨"2", "B", 1, "u", []⟩,
        ⟨"3", "C", 2, "u", []⟩] ["wildberries"] []).average_price
    ∧ (calcSummary [⟨"1", "A", 1, "u", []⟩, ⟨"2", "B", 1, "u", []⟩,
        ⟨"3", "C", 2, "u", []⟩] ["wildberries"] []).average_price
        ≤ (calcSummary [⟨"1", "A", 1, "u", []⟩, ⟨"2", "B", 1, "u", []⟩,
        ⟨"3", "C", 2, "u", []⟩] ["wildberries"] []).max_price :=
  summary_average_price_amended
    [⟨"1", "A", 1, "u", []⟩, ⟨"2", "B", 1, "u", []⟩, ⟨"3", "C", 2, "u", []⟩]
    ["wildberries"] [] (by simp)

/-- Counterexample for C5 as stated: with prices 1, 1, 2 the exact mean is
4/3, but the reported `average_price` is `round(4/3, 2) = 1.33 ≠ 4/3`. -/
theorem summary_average_price_cex :
    (calcSummary [⟨"1", "A", 1, "u", []⟩, ⟨"2", "B", 1, "u", []⟩,
        ⟨"3", "C", 2, "u", []⟩] ["wildberries"] []).average_price
      ≠ (1 + 1 + 2) / 3 := by
  norm_num [calcSummary, round2, roundHalfEven, Rat.floor_def', qMin, qMax]

/-- The `total_sources` field never depends on the products branch. -/
theorem calcSummary_total_sources (products : List Product)
    (sources_used : List String) (errors : List SourceError) :
    (calcSummary products sources_used errors).total_sources
      = sources_used.length := by
  unfold calcSummary
  split <;> rfl

/-- C6 (amended): in every summary, `total_sources = successful_sources +
failed_sources`; `error_rate` is `failed/total` rounded to three decimal
places when products are non-empty, and exactly `failed/total` when the
product list is empty (the code rounds only in the non-empty branch); in
every bundle returned by `search`, `summary.total_sources` is the number of
resolved sources. -/
theorem summary_error_rate_amended :
    (∀ (products : List Product) (sources_used : List String)
        (errors : List SourceError),
      ((calcSummary products sources_used errors).total_sources : ℤ)
          = (calcSummary products sources_used errors).successful_sources
            + (calcSummary products sources_used errors).failed_sources
      ∧ (calcSummary products sources_used errors).error_rate
          = (if products.isEmpty then
              (if sources_used.isEmpty then 0
               else (errors.length : ℚ) / sources_used.length)
             else round3 (if sources_used.isEmpty then 0
               else (errors.length : ℚ) / sources_used.length)))
    ∧ (∀ (available : List String) (sources : Option (List String))
        (fetch : String → Except String (List Product))
        (cache : SearchCache CachePayload) (uc fb : Bool) (timeout : ℕ)
        (q : String) (now : ℚ),
      ∃ b, searchAgg available sources fetch cache uc fb timeout false q now
          = Except.ok b
        ∧ b.summary.total_sources = (resolveSources available sources).length) := by
  constructor
  · intro products sources_used errors
    constructor
    · unfold calcSummary
      split <;> simp
    · unfold calcSummary
      split <;> simp
  · intro available sources fetch cache uc fb timeout q now
    refine ⟨_, rfl, ?_⟩
    exact calcSummary_total_sources _ _ _

/-- Counterexample for C6 as stated: 3 sources and 1 failure with a non-empty
product list reports `error_rate = round(1/3, 3) = 0.333 ≠ 1/3`. -/
theorem summary_error_rate_cex :
    (calcSummary [⟨"1", "A", 1, "u", []⟩] ["a", "b", "c"]
        [⟨"a", "boom"⟩]).failed_sources = 1
    ∧ (calcSummary [⟨"1", "A", 1, "u", []⟩] ["a", "b", "c"]
        [⟨"a", "boom"⟩]).total_sources = 3
    ∧ (calcSummary [⟨"1", "A", 1, "u", []⟩] ["a", "b", "c"]
        [⟨"a", "boom"⟩]).error_rate ≠ 1 / 3 := by
  refine ⟨rfl, rfl, ?_⟩
  norm_num [calcSummary, round3, roundHalfEven, Rat.floor_def']

/-- Counterexample for C7 as stated: for a product whose `brand` metadata
field is present but empty, the spec's rule ("absent/empty brand counts as
Unknown") predicts a brand distribution of size 1, but the code skips the
falsy empty string entirely and reports `brand_diversity = 0`. -/
theorem summary_brand_empty_cex :
    (calcSummary [⟨"1", "A", 1, "u", [("brand", "")]⟩] ["s"] []).brand_diversity
      ≠ some (specBrandCounts [⟨"1", "A", 1, "u", [("brand", "")]⟩]).length := by
  decide

/-- C7 (amended): a product with no `brand` metadata key is grouped under
"Unknown", while a present-but-empty brand string is skipped entirely; in the
scenario with one brandless product and two products branded "Acme",
`brand_diversity = 2` and the top brand entry is ("Acme", 2). -/
theorem summary_brand_distribution_amended :
    (calcSummary [⟨"1", "A", 1, "u", []⟩, ⟨"2", "B", 2, "u", [("brand", "Acme")]⟩,
        ⟨"3", "C", 3, "u", [("brand", "Acme")]⟩] ["s"] []).brand_diversity
      = some 2
    ∧ (calcSummary [⟨"1", "A", 1, "u", []⟩, ⟨"2", "B", 2, "u", [("brand", "Acme")]⟩,
        ⟨"3", "C", 3, "u", [("brand", "Acme")]⟩] ["s"] []).top_brands
      = some [("Acme", 2), ("Unknown", 1)]
    ∧ (calcSummary [⟨"1", "A", 1, "u", [("brand", "")]⟩] ["s"] []).brand_diversity
      = some 0 := by
  decide

/-! ### Helper lemmas about the aggregator fan-out -/

theorem searchSource_error_on_empty (ttl : ℚ) (s q e : String) (uc fb : Bool)
    (now : ℚ) :
    searchSource (SearchCache.empty CachePayload ttl) s q (Except.error e) uc fb
        now
      = (Except.error (AggError.sourceFailed s e),
          SearchCache.empty CachePayload ttl) := by
  cases uc <;> cases fb <;>
    simp [searchSource, SearchCache.get, SearchCache.empty, assocGet]

theorem runUnits_all_fail (srcs : List String) (ttl : ℚ)
    (fetch : String → Except String (List Product)) (errMsg : String → String)
    (h : ∀ s, fetch s = Except.error (errMsg s)) (uc fb : Bool) (q : String)
    (now : ℚ) :
    runUnits srcs (SearchCache.empty CachePayload ttl) fetch uc fb q now
      = (srcs.map (fun s =>
          (s, Except.error (AggError.sourceFailed s (errMsg s)))),
          SearchCache.empty CachePayload ttl) := by
  induction srcs with
  | nil => simp [runUnits]
  | cons a l ih =>
      simp only [runUnits, h a, searchSource_error_on_empty, List.map_cons]
      simp [ih]

theorem collect_map_error (l : List String) (f : String → AggError) :
    collect (l.map (fun s => (s, Except.error (f s))))
      = ⟨[],
          l.map (fun s => (s, ⟨[], some (f s).message, false, 0, none⟩)),
          l.map (fun s => ⟨s, (f s).message⟩),
          l.map (fun s => (s, false)),
          []⟩ := by
  induction l with
  | nil => rfl
  | cons a l ih => simp [collect, ih]

theorem calcDataAge_all_error (l : List String) (f : String → AggError)
    (now : ℚ) :
    calcDataAge
        (l.map (fun s =>
          (s, (⟨[], some (f s).message, false, 0, none⟩ : SourceResultR)))) now
      = 0 := by
  simp [calcDataAge, List.filterMap_map, Function.comp]

theorem countHits_map_false (l : List String) :
    countHits (l.map (fun s => (s, false))) = 0 := by
  induction l with
  | nil => rfl
  | cons a l ih =>
      simp only [List.map_cons, countHits, List.filter] at ih ⊢
      exact ih

theorem assess_quality_all_fail_confidence (srcs : List String) (h : srcs ≠ [])
    (errs : List SourceError) (hlen : errs.length = srcs.length)
    (hits : List (String × Bool)) (hhits : countHits hits = 0)
    (hhl : hits.length = srcs.length) (sd : List (String × SourceInfoR)) :
    (assess_quality [] srcs errs hits 0 sd).confidence_score = 0.6 := by
  have hn : (0 : ℚ) < (srcs.length : ℚ) := by
    exact_mod_cast List.length_pos.mpr h
  have hse : srcs.isEmpty = false := by
    cases srcs with
    | nil => exact absurd rfl h
    | cons a l => rfl
  have hhe : hits.isEmpty = false := by
    cases hits with
    | nil =>
        exfalso
        have : srcs.length = 0 := by simpa using hhl.symm
        exact h (List.length_eq_zero.mp this)
    | cons a l => rfl
  have her : (errs.length : ℚ) / (srcs.length : ℚ) = 1 := by
    rw [hlen]; exact div_self (ne_of_gt hn)
  have hcu : (countHits hits : ℚ) / (hits.length : ℚ) = 0 := by
    rw [hhits]; simp
  have hbase : calculate_base_confidence [] srcs errs = 0.4 := by
    simp [calculate_base_confidence]
  have hfresh : calculate_freshness_score 0 = 1 := by
    norm_num [calculate_freshness_score]
  have hrel : calculate_reliability_score srcs errs hits = 0.5 := by
    simp only [calculate_reliability_score, hse, Bool.false_eq_true, if_false,
      hhe, her, hcu]
    norm_num
  have hccs : calculate_confidence_score 0.4 1 0.5 = 0.6 := by
    unfold calculate_confidence_score
    norm_num
  simp only [assess_quality, hbase, hfresh, hrel, hccs]
  norm_num [round2, roundHalfEven, Rat.floor_def']

theorem map_source_comp (g : String → String) (l : List String) :
    List.map (SourceError.source ∘ fun s => (⟨s, g s⟩ : SourceError)) l = l := by
  induction l with
  | nil => rfl
  | cons a t ih => simp only [List.map_cons, Function.comp_apply, ih]

/-- C3: if every resolved source's fetch raises and `fallback_to_cache` is
false (cold cache), a call that does not hit the overall timeout still
returns a bundle: empty results, and exactly one error entry per requested
source, in order. -/
theorem search_all_fail_no_fallback (srcs : List String)
    (fetch : String → Except String (List Product)) (errMsg : String → String)
    (h : ∀ s, fetch s = Except.error (errMsg s)) (ttl : ℚ) (uc : Bool)
    (timeout : ℕ) (q : String) (now : ℚ) :
    ∃ b : Bundle,
      searchAgg srcs none fetch (SearchCache.empty CachePayload ttl) uc false
          timeout false q now = Except.ok b
      ∧ b.results = []
      ∧ b.errors.length = srcs.length
      ∧ b.errors.map SourceError.source = srcs := by
  simp only [searchAgg, resolveSources, Bool.false_eq_true, if_false,
    runUnits_all_fail srcs ttl fetch errMsg h uc false q now,
    collect_map_error]
  refine ⟨_, rfl, by simp, by simp, by simp [map_source_comp]⟩

/-- Witness for C3 with two sources whose fetches both raise. -/
theorem search_all_fail_no_fallback_witness :
    ∃ b : Bundle,
      searchAgg ["wildberries", "ozon"] none (fun _ => Except.error "API down")
          (SearchCache.empty CachePayload 21600) true false 30 false "телефон" 0
        = Except.ok b
      ∧ b.results = []
      ∧ b.errors.length = ["wildberries", "ozon"].length
      ∧ b.errors.map SourceError.source = ["wildberries", "ozon"] :=
  search_all_fail_no_fallback ["wildberries", "ozon"]
    (fun _ => Except.error "API down") (fun _ => "API down") (fun _ => rfl)
    21600 true 30 "телефон" 0

theorem timeout_message_ne_source_message (t : ℕ) (s m : String) :
    (AggError.timeout t).message ≠ (AggError.sourceFailed s m).message := by
  intro h
  simp only [AggError.message] at h
  have hd := congrArg String.data h
  simp only [String.data_append] at hd
  have h1 := congrArg (fun l => l[7]?) hd
  simp only at h1
  rw [List.getElem?_append_left (by decide),
    List.getElem?_append_left (by decide)] at h1
  exact absurd h1 (by decide)

/-- C4: the call raises the timeout error exactly when the overall deadline
fires; the raised error carries the configured duration and renders the
message of aggregator.py line 455; no bundle is returned in that case, and
whenever the deadline does not fire the call returns a bundle (so the timeout
is the only call-level failure); the timeout error is distinguishable from a
per-source fetch error both as a value and by its message. -/
theorem search_timeout_is_only_failure (available : List String)
    (sources : Option (List String))
    (fetch : String → Except String (List Product))
    (cache : SearchCache CachePayload) (uc fb : Bool) (timeout : ℕ)
    (timedOut : Bool) (q : String) (now : ℚ) :
    (searchAgg available sources fetch cache uc fb timeout timedOut q now
        = Except.error (AggError.timeout timeout) ↔ timedOut = true)
    ∧ (timedOut = false →
        ∃ b, searchAgg available sources fetch cache uc fb timeout timedOut q
            now = Except.ok b)
    ∧ (AggError.timeout timeout).message
        = "Search operation timed out after "
            ++ (toString timeout ++ " seconds")
    ∧ (∀ s m, AggError.timeout timeout ≠ AggError.sourceFailed s m)
    ∧ (∀ s m, (AggError.timeout timeout).message
        ≠ (AggError.sourceFailed s m).message) := by
  refine ⟨?_, ?_, rfl, ?_, ?_⟩
  · cases timedOut <;> simp [searchAgg]
  · intro ht
    subst ht
    simp only [searchAgg, Bool.false_eq_true, if_false]
    exact ⟨_, rfl⟩
  · intro s m
    simp
  · exact fun s m => timeout_message_ne_source_message timeout s m

/-- Witness for C4: with the deadline fired the call returns exactly the
timeout error; with the deadline not fired it returns a bundle. -/
theorem search_timeout_is_only_failure_witness :
    searchAgg ["wildberries"] none (fun _ => Except.ok [])
        (SearchCache.empty CachePayload 21600) true true 30 true "q" 0
      = Except.error (AggError.timeout 30)
    ∧ ∃ b, searchAgg ["wildberries"] none (fun _ => Except.ok [])
        (SearchCache.empty CachePayload 21600) true true 30 false "q" 0
      = Except.ok b :=
  ⟨(search_timeout_is_only_failure ["wildberries"] none (fun _ => Except.ok [])
      (SearchCache.empty CachePayload 21600) true true 30 true "q" 0).1.mpr rfl,
   (search_timeout_is_only_failure ["wildberries"] none (fun _ => Except.ok [])
      (SearchCache.empty CachePayload 21600) true true 30 false "q" 0).2.1 rfl⟩

/-- C8 (amended): when every resolved source fails and the deadline is not
exceeded, the bundle is still returned (never a "no result" sentinel) with
zero successful sources and a 100% error rate, and the confidence score is
0.6 — the base sub-score sits at the floor 0.4 but the weighted blend with
freshness 1.0 and reliability 0.5 yields 0.6, not the floor itself. -/
theorem search_all_fail_reports_amended (srcs : List String) (h : srcs ≠ [])
    (fetch : String → Except String (List Product)) (errMsg : String → String)
    (hf : ∀ s, fetch s = Except.error (errMsg s)) (ttl : ℚ) (uc fb : Bool)
    (timeout : ℕ) (q : String) (now : ℚ) :
    ∃ b : Bundle,
      searchAgg srcs none fetch (SearchCache.empty CachePayload ttl) uc fb
          timeout false q now = Except.ok b
      ∧ b.summary.successful_sources = 0
      ∧ b.summary.failed_sources = srcs.length
      ∧ b.summary.error_rate = 1
      ∧ b.data_quality.confidence_score = 0.6 := by
  have hse : srcs.isEmpty = false := by
    cases srcs with
    | nil => exact absurd rfl h
    | cons a l => rfl
  have hn : (0 : ℚ) < (srcs.length : ℚ) := by
    exact_mod_cast List.length_pos.mpr h
  simp only [searchAgg, resolveSources, Bool.false_eq_true, if_false,
    runUnits_all_fail srcs ttl fetch errMsg hf uc fb q now,
    collect_map_error]
  refine ⟨_, rfl, ?_, ?_, ?_, ?_⟩
  · simp [calcSummary]
  · simp [calcSummary]
  · simp only [calcSummary, List.isEmpty_nil, if_true, hse,
      Bool.false_eq_true, if_false, List.length_map]
    exact div_self (ne_of_gt hn)
  · simp only [calcDataAge_all_error]
    exact assess_quality_all_fail_confidence srcs h _ (by simp) _
      (countHits_map_false srcs) (by simp) []

/-- Witness for C8 (amended) at one concrete failing source. -/
theorem search_all_fail_reports_amended_witness :
    ∃ b : Bundle,
      searchAgg ["wildberries"] none (fun _ => Except.error "API error")
          (SearchCache.empty CachePayload 21600) true false 30 false "телефон" 0
        = Except.ok b
      ∧ b.summary.successful_sources = 0
      ∧ b.summary.failed_sources = ["wildberries"].length
      ∧ b.summary.error_rate = 1
      ∧ b.data_quality.confidence_score = 0.6 :=
  search_all_fail_reports_amended ["wildberries"] (by simp)
    (fun _ => Except.error "API error") (fun _ => "API error") (fun _ => rfl)
    21600 true false 30 "телефон" 0

/-- Counterexample for C8 as stated: with one failing source the returned
confidence score is 0.6, which is not the floor value 0.4. -/
theorem search_all_fail_confidence_cex :
    (searchAgg ["wildberries"] none (fun _ => Except.error "API error")
        (SearchCache.empty CachePayload 21600) true false 30 false "телефон"
        0).toOption.map (fun b => b.data_quality.confidence_score)
      = some 0.6
    ∧ (0.6 : ℚ) ≠ 0.4 := by
  constructor
  · norm_num [searchAgg, resolveSources, runUnits, searchSource,
      SearchCache.get, SearchCache.empty, assocGet, collect, calcSummary,
      calcDataAge, assess_quality, calculate_base_confidence,
      calculate_freshness_score, calculate_reliability_score,
      calculate_confidence_score, calculate_completeness_score, countHits,
      round2, round3, roundHalfEven, Rat.floor_def', Except.toOption]
  · norm_num

/-- C9: the code calls the quality assessor with no exception handler
(aggregator.py line 500), so an internal assessor failure propagates and
aborts the whole `search` call instead of degrading to default scores. -/
theorem search_assessor_error_propagates (available : List String)
    (sources : Option (List String))
    (fetch : String → Except String (List Product))
    (cache : SearchCache CachePayload) (uc fb : Bool) (timeout : ℕ)
    (q : String) (now : ℚ) (e : String) :
    searchAggWith (fun _ _ _ _ _ _ => Except.error e) available sources fetch
        cache uc fb timeout false q now = Except.error (AggError.raised e) := by
  simp [searchAggWith]

/-- C10 (amended): on the fetch-failure path `_search_source` never writes to
the cache — the final cache state is either exactly the initial one, or the
initial one with the expired entry for that (source, query) key evicted by
the lazy-expiry reads. -/
theorem searchSource_no_write_on_fetch_failure (c : SearchCache CachePayload)
    (s q e : String) (uc fb : Bool) (now : ℚ) :
    (searchSource c s q (Except.error e) uc fb now).2 = c
    ∨ (searchSource c s q (Except.error e) uc fb now).2
        = { c with cache := assocRemove c.cache (s, q) } := by
  cases uc with
  | false =>
      cases fb with
      | false => left; rfl
      | true =>
          rcases hg : assocGet c.cache (s, q) with _ | item
          · simp [searchSource, SearchCache.get, hg]
          · by_cases ht : now > item.timestamp + c.ttl
            · simp [searchSource, SearchCache.get, hg, ht]
            · simp [searchSource, SearchCache.get, hg, ht]
  | true =>
      rcases hg : assocGet c.cache (s, q) with _ | item
      · cases fb <;> simp [searchSource, SearchCache.get, hg]
      · by_cases ht : now > item.timestamp + c.ttl
        · cases fb <;>
            simp [searchSource, SearchCache.get, hg, ht,
              assocGet_assocRemove_self]
        · cases fb <;> simp [searchSource, SearchCache.get, hg, ht]

/-- Counterexample for C10 as stated: an entry written at time 0 with
`ttl = 10` is present before a call at time 11 whose fetch raises, and gone
afterwards — the (source, query) entry was not left unchanged by the call. -/
theorem searchSource_evicts_expired_on_failure_cex :
    assocGet ((searchSource
        (SearchCache.set (SearchCache.empty CachePayload 10) "wb" "q" ⟨[], 0⟩ 0)
        "wb" "q" (Except.error "boom") true false 11).2).cache ("wb", "q")
      = none
    ∧ assocGet (SearchCache.set (SearchCache.empty CachePayload 10) "wb" "q"
        (⟨[], 0⟩ : CachePayload) 0).cache ("wb", "q")
      = some ⟨0, ⟨[], 0⟩⟩ := by
  constructor
  · norm_num [searchSource, SearchCache.get, SearchCache.set,
      SearchCache.empty, assocGet, assocSet, assocRemove]
  · norm_num [SearchCache.set, SearchCache.empty, assocGet, assocSet]

end RuSearch
